import Mathlib

/-!
Verification of the MRU branch-tracking and terminal-command-dispatch
subsystem of the rd-git editor extension.

The TypeScript sources are shallowly embedded as executable Lean
functions.  String operations used by the source (`trim`, `startsWith`,
`slice`, `split`/`join`) are modelled by character-list operations with
the same semantics.  The stateful command handlers of
`src/app/extension/activate.ts` are modelled as pure functions from an
environment (the data the handler reads from its collaborators) to the
trace of observable effects (log entries, git-operation-state writes,
terminal dispatches, MRU synchronisations) they produce.
-/

/-! ## String primitives (JS semantics) -/

/-- JS `String.prototype.trim`: remove leading and trailing whitespace. -/
def strTrim (s : String) : String :=
  ⟨List.rdropWhile Char.isWhitespace (List.dropWhile Char.isWhitespace s.data)⟩

/-- JS `String.prototype.startsWith`. -/
def strStartsWith (s pre : String) : Bool :=
  List.isPrefixOf pre.data s.data

/-- JS `String.prototype.slice(n)` for a nonnegative `n`. -/
def strDrop (s : String) (n : Nat) : String :=
  ⟨s.data.drop n⟩

/-- Leftmost, non-overlapping replacement of every occurrence of `pat`
by `rep`, fuelled structural recursion (the fuel is an upper bound on
the number of matches; with fuel `l.length + 1` it is never exhausted
for a nonempty pattern). -/
def replaceAllFuel (pat rep : List Char) : Nat → List Char → List Char
  | 0, l => l
  | fuel + 1, l =>
    match List.findIdx? (fun suffix => List.isPrefixOf pat suffix) (l.tails) with
    | none => l
    | some i => l.take i ++ rep ++ replaceAllFuel pat rep fuel (l.drop (i + pat.length))

/-- JS `cmd.split(pattern).join(replacement)` for a nonempty `pattern`. -/
def replaceAllStr (s pat rep : String) : String :=
  ⟨replaceAllFuel pat.data rep.data (s.data.length + 1) s.data⟩

/-! ## Branch-name utilities, from `src/app/extension/activate.ts`
(the copy in `RecentBranchesProvider.ts` is textually identical). -/

def refsHeadsPre : String := "refs/heads/"

def headsPre : String := "heads/"

/-- `normalizeBranchName` from the source: strip a leading
`refs/heads/` or `heads/` prefix (one of them, once). -/
def normalizeBranchName (branchName : String) : String :=
  if strStartsWith branchName refsHeadsPre then
    strDrop branchName refsHeadsPre.length
  else if strStartsWith branchName headsPre then
    strDrop branchName headsPre.length
  else branchName

/-- A character allowed by the source regex `[A-Za-z0-9._` slash `-]`. -/
def isShellSafeChar (c : Char) : Bool :=
  c.isAlpha || c.isDigit || c = '.' || c = '_' || c = '/' || c = '-'

/-- `isShellSafeGitRef` from the source: a test of the regex (one or more characters, each alphanumeric or `.`, `_`, slash, `-`),
i.e. the string is nonempty and every character is in the class. -/
def isShellSafeGitRef (value : String) : Bool :=
  !value.data.isEmpty && value.data.all isShellSafeChar

/-- A string containing at least one character outside the shell-safe
class (the kind of input the spec calls shell-unsafe). -/
def containsUnsafeChar (s : String) : Bool :=
  s.data.any (fun c => !isShellSafeChar c)

/-! ## Persistent MRU store, from
`src/features/branches/extension/RecentBranchesProvider.ts` -/

def MAX_STORED_BRANCHES : Nat := 20

def MAX_VISIBLE_BRANCHES : Nat := 5

/-- The scan inside `getMruForCurrentRepo`: keep the first occurrence of
each nonempty name, in order (`seen` is the set already emitted). -/
def mruDedup (seen : List String) : List String → List String
  | [] => []
  | name :: rest =>
    if name == "" || seen.contains name then mruDedup seen rest
    else name :: mruDedup (name :: seen) rest

/-- `getMruForCurrentRepo`, acting on the raw stored array for the
current repository key: normalize every entry, then drop empty names and
duplicates (first-seen-wins). -/
def getMruForCurrentRepo (raw : List String) : List String :=
  mruDedup [] (raw.map normalizeBranchName)

/-- `updateMruBranch`, acting on the raw stored array: normalize the
name once, remove existing occurrences from the deduplicated view,
prepend, truncate to `MAX_STORED_BRANCHES`; the result is the new
stored array. -/
def updateMruBranch (raw : List String) (branchName : String) : List String :=
  let normalizedBranchName := normalizeBranchName branchName
  let current := getMruForCurrentRepo raw
  let deduped := current.filter (fun name => name != normalizedBranchName)
  (normalizedBranchName :: deduped).take MAX_STORED_BRANCHES

/-- A finite sequence of `updateMruBranch` calls (oldest first). -/
def applyVisits (raw : List String) (visits : List String) : List String :=
  visits.foldl updateMruBranch raw

/-! ## Ranked branch view (`getRecentBranches`) -/

structure RecentBranch where
  name : String
  isCurrent : Bool
  lastCommitDescription : String
deriving DecidableEq

/-- `getRecentBranches`, for the case in which a repository is set (the
source returns `[]` otherwise).  `raw` is the stored MRU array,
`baseBranchName` the result of `getBaseBranchName`, `headName` the
repository HEAD ref name, and `describe` the per-branch
last-commit-description lookup (an external git-log query). -/
def getRecentBranches (raw : List String) (baseBranchName : String)
    (headName : Option String) (describe : String → String) : List RecentBranch :=
  let mru := getMruForCurrentRepo raw
  let orderedBranchNames :=
    (if baseBranchName == "" then [] else [baseBranchName]) ++
      mru.filter (fun branchName => branchName != baseBranchName)
  let filtered := orderedBranchNames.take MAX_VISIBLE_BRANCHES
  let headNorm := normalizeBranchName (headName.getD (""))
  filtered.map (fun name => ⟨name, name == headNorm, describe name⟩)

/-! ## Provider state and `updateCurrentBranchMru`
(`RecentBranchesProvider` fields plus the orchestrator helper in
`activate.ts`) -/

/-- A repository handle of the host git provider: object identity is
modelled by `id`; `path` is `rootUri.fsPath`; `headName` is
`state.HEAD?.name` (`none` for a missing HEAD). -/
structure Repository where
  id : Nat
  path : String
  headName : Option String
deriving DecidableEq

/-- The provider's observable state: the tracked repository handle, the
persistent key-value store (`vscode.Memento`), and the number of
tree-data-changed (re-render) notifications fired so far. -/
structure ProviderState where
  repository : Option Repository
  storage : List (String × List String)
  refreshCount : Nat
deriving DecidableEq

def getStorageKey (repoPath : String) : String := "rd-git.mru." ++ repoPath

/-- `Memento.get(key, [])`. -/
def mementoGet (storage : List (String × List String)) (key : String) : List String :=
  ((storage.find? (fun kv => kv.1 == key)).map (fun kv => kv.2)).getD []

/-- `Memento.update(key, value)`. -/
def mementoUpdate (storage : List (String × List String)) (key : String)
    (value : List String) : List (String × List String) :=
  if storage.any (fun kv => kv.1 == key) then
    storage.map (fun kv => if kv.1 == key then (key, value) else kv)
  else storage ++ [(key, value)]

def providerRefresh (st : ProviderState) : ProviderState :=
  ⟨st.repository, st.storage, st.refreshCount + 1⟩

/-- `setRepository`: swap the handle and fire a re-render. -/
def setRepository (st : ProviderState) (repository : Option Repository) : ProviderState :=
  providerRefresh ⟨repository, st.storage, st.refreshCount⟩

/-- `updateMruBranch` at the provider level: no-op without a
repository, else rewrite the stored array under the repository key. -/
def providerUpdateMruBranch (st : ProviderState) (branchName : String) : ProviderState :=
  match st.repository with
  | none => st
  | some repo =>
    let key := getStorageKey repo.path
    ⟨st.repository, mementoUpdate st.storage key (updateMruBranch (mementoGet st.storage key) branchName),
      st.refreshCount⟩

/-- `updateCurrentBranchMru` from `activate.ts`: read HEAD; if absent or
empty do nothing; otherwise swap the handle to the event's repository,
record the visit, swap back to the previous handle when it differed
(`previous ?? repository`), and fire a final re-render. -/
def updateCurrentBranchMru (repository : Repository) (st : ProviderState) : ProviderState :=
  match repository.headName with
  | none => st
  | some headName =>
    if headName = "" then st
    else
      let previous := st.repository
      let st1 := setRepository st (some repository)
      let st2 := providerUpdateMruBranch st1 headName
      let st3 :=
        if previous ≠ some repository then setRepository st2 (some (previous.getD repository))
        else st2
      providerRefresh st3

/-! ## Log entries and the base-branch resolvers -/

inductive LogLevel where
  | info
  | warn
  | error
deriving DecidableEq

structure LogEntry where
  level : LogLevel
  category : String
  message : String
deriving DecidableEq

/-- Outcome of one external `git` process invocation: captured stdout
and stderr on success; the caught error message (`error.message`, or
the literal fallback text) on failure. -/
structure GitExecOutput where
  stdout : String
  stderr : String
deriving DecidableEq

def symbolicRefCommand : String := "git symbolic-ref --short refs/remotes/origin/HEAD"

def originPre : String := "origin/"

/-- `runGit` from `activate.ts`: log the command, log trimmed stdout
and stderr when nonempty, return trimmed stdout — or trimmed stderr
when stdout trims to empty but stderr does not — and rethrow failures
after logging them. -/
def runGit (cmd : String) (exec : Except String GitExecOutput) :
    Except String String × List LogEntry :=
  let header : List LogEntry := [⟨.info, "git", "$ " ++ cmd⟩]
  match exec with
  | .ok out =>
    let trimmedStdout := strTrim out.stdout
    let trimmedStderr := strTrim out.stderr
    let stdoutLog : List LogEntry :=
      if trimmedStdout = "" then [] else [⟨.info, "git", trimmedStdout⟩]
    let stderrLog : List LogEntry :=
      if trimmedStderr = "" then [] else [⟨.warn, "git", trimmedStderr⟩]
    let returned :=
      if trimmedStderr = "" then trimmedStdout
      else if trimmedStdout = "" then trimmedStderr else trimmedStdout
    (.ok returned, header ++ stdoutLog ++ stderrLog)
  | .error msg => (.error msg, header ++ [⟨.error, "git", msg⟩])

/-- `resolveBaseBranch` from `activate.ts` (the command-path resolver):
trim the query result, strip an `origin/` prefix, and return it with no
further fallback; only a failed query falls back to `main`. -/
def resolveBaseBranch (exec : Except String GitExecOutput) : String × List LogEntry :=
  match runGit symbolicRefCommand exec with
  | (.ok result, logs) =>
    let normalized := strTrim result
    if strStartsWith normalized originPre then (strDrop normalized originPre.length, logs)
    else (normalized, logs)
  | (.error _, logs) =>
    (("main" : String), logs ++ [⟨.warn, "git", "Falling back to base branch \x27main\x27 in extension command."⟩])

/-- `runGitCommand` from `RecentBranchesProvider.ts`: same logging as
`runGit`, but the raw (untrimmed) stdout is returned on success. -/
def runGitCommandProvider (cmd : String) (exec : Except String GitExecOutput) :
    Except String String × List LogEntry :=
  let header : List LogEntry := [⟨.info, "git", "$ " ++ cmd⟩]
  match exec with
  | .ok out =>
    let trimmedStdout := strTrim out.stdout
    let trimmedStderr := strTrim out.stderr
    let stdoutLog : List LogEntry :=
      if trimmedStdout = "" then [] else [⟨.info, "git", trimmedStdout⟩]
    let stderrLog : List LogEntry :=
      if trimmedStderr = "" then [] else [⟨.warn, "git", trimmedStderr⟩]
    (.ok out.stdout, header ++ stdoutLog ++ stderrLog)
  | .error msg => (.error msg, header ++ [⟨.error, "git", msg⟩])

/-- `getBaseBranchName` from `RecentBranchesProvider.ts` (the
tracker-path resolver), for the case in which a repository is set (the
source returns `main` immediately otherwise): normalize the trimmed
stdout, strip an `origin/` prefix, and coerce an empty result (in the
no-`origin/`-prefix branch) to `main`; a failed query falls back to
`main` with a warning. -/
def getBaseBranchName (exec : Except String GitExecOutput) : String × List LogEntry :=
  match runGitCommandProvider symbolicRefCommand exec with
  | (.ok stdout, logs) =>
    let normalized := normalizeBranchName (strTrim stdout)
    if strStartsWith normalized originPre then (strDrop normalized originPre.length, logs)
    else if normalized = "" then (("main" : String), logs)
    else (normalized, logs)
  | (.error _, logs) =>
    (("main" : String), logs ++ [⟨.warn, "branches", "Falling back to base branch \x27main\x27."⟩])

/-! ## Command templates and rendering (`activate.ts`) -/

structure GitCommandTemplates where
  switchBranch : String
  pullFromOrigin : String
  mergeFromBase : String
deriving DecidableEq

def targetBranchKey : String := "targetBranch"

def baseBranchKey : String := "baseBranch"

def switchBranchKey : String := "switchBranch"

def pullFromOriginKey : String := "pullFromOrigin"

def mergeFromBaseKey : String := "mergeFromBase"

def DEFAULT_GIT_COMMAND_TEMPLATES : GitCommandTemplates :=
  ⟨"git checkout \x7b\x7btargetBranch\x7d\x7d", "git pull", "git merge \x7b\x7bbaseBranch\x7d\x7d"⟩

/-- The placeholder-substitution loop of `renderGitCommandTemplate`:
for each `(name, value)` pair, `command.split(...).join(value)` on the
textual placeholder `.\x7b\x7bname\x7d\x7d.`. -/
def substituteTemplate (template : String) (values : List (String × String)) : String :=
  values.foldl
    (fun command nv => replaceAllStr command ("\x7b\x7b" ++ nv.1 ++ "\x7d\x7d") nv.2)
    template

/-- One pass of `renderGitCommandTemplate` without the fallback
recursion: trim the template, substitute, trim the result; report which
emptiness check (if any) failed. -/
inductive RenderAttempt where
  | ok (cmd : String)
  | emptyTemplate
  | emptyCommand
deriving DecidableEq

def renderAttempt (template : String) (values : List (String × String)) : RenderAttempt :=
  let normalizedTemplate := strTrim template
  if normalizedTemplate = "" then .emptyTemplate
  else
    let normalizedCommand := strTrim (substituteTemplate normalizedTemplate values)
    if normalizedCommand = "" then .emptyCommand else .ok normalizedCommand

def renderWarnLog (templateKey : String) : RenderAttempt → List LogEntry
  | .ok _ => []
  | .emptyTemplate =>
    [⟨.warn, "commands", "Setting rd-git.gitCommands." ++ templateKey ++ " is empty. Using default template."⟩]
  | .emptyCommand =>
    [⟨.warn, "commands",
      "Setting rd-git.gitCommands." ++ templateKey ++ " resolved to an empty command. Using default template."⟩]

/-- `renderGitCommandTemplate`: try the configured template; on an
emptiness failure log a warning and recurse once into the fallback
template.  When the fallback itself fails its emptiness checks the
source recurses forever (it assumes the compiled-in defaults are
non-empty); that divergence is modelled by `none`. -/
def renderGitCommandTemplate (template : String) (values : List (String × String))
    (fallbackTemplate : String) (templateKey : String) : Option String × List LogEntry :=
  match renderAttempt template values with
  | .ok command => (some command, [])
  | firstFailure =>
    match renderAttempt fallbackTemplate values with
    | .ok command => (some command, renderWarnLog templateKey firstFailure)
    | _ => (none, renderWarnLog templateKey firstFailure)

/-! ## Terminal dispatch result type (`GitTerminalExecutor`) -/

def DEFAULT_TERMINAL_NAME : String := "RDgit"

inductive Lifecycle where
  | created
  | reused
deriving DecidableEq

inductive DispatchStep where
  | createOrReuse
  | showTerminal
  | focus
  | sendText
deriving DecidableEq

structure TerminalDispatchResult where
  ok : Bool
  terminalName : String
  lifecycle : Lifecycle
  errorMessage : Option String
  failedStep : Option DispatchStep
deriving DecidableEq

def dispatchStepName : Option DispatchStep → String
  | some .createOrReuse => "createOrReuse"
  | some .showTerminal => "show"
  | some .focus => "focus"
  | some .sendText => "sendText"
  | none => "unknown"

/-- `logTerminalDispatchResult` from `activate.ts`. -/
def logTerminalDispatchResult (actionLabel command : String)
    (result : TerminalDispatchResult) : List LogEntry :=
  if result.ok then
    let lifecycleLabel := match result.lifecycle with | .created => "created" | .reused => "reused"
    [⟨.info, "commands",
        actionLabel ++ ": terminal \x27" ++ result.terminalName ++ "\x27 " ++ lifecycleLabel ++ "; command dispatched."⟩,
      ⟨.info, "git", "$ " ++ command⟩]
  else
    let failedStep := dispatchStepName result.failedStep
    let details := result.errorMessage.getD ("Unknown terminal dispatch error.")
    [⟨.error, "commands",
        actionLabel ++ ": terminal dispatch failed at \x27" ++ failedStep ++ "\x27 for \x27" ++
          result.terminalName ++ "\x27. " ++ details⟩]

/-! ## Command handlers as effect traces -/

/-- The `branchArg` parameter of the pull and merge commands:
a string, or an object with an optional `branchName` field. -/
inductive BranchArg where
  | str (s : String)
  | obj (branchName : Option String)
deriving DecidableEq

def getBranchName : BranchArg → String
  | .str s => s
  | .obj branchName => branchName.getD ("")

inductive GitAction where
  | pullFromOrigin
  | mergeFromBase
deriving DecidableEq

/-- `GitOperationState` as pushed to the webview. -/
structure GitOperationState where
  isInProgress : Bool
  action : Option GitAction
  terminalName : String
  notice : String
deriving DecidableEq

/-- One observable effect of a command handler: a log append, a
git-operation-state write, a terminal dispatch (`runCommand` call
with repository path and command text), or an
`updateCurrentBranchMru` re-sync (carrying the HEAD it saw). -/
inductive HandlerEffect where
  | log : LogEntry → HandlerEffect
  | setOpState : GitOperationState → HandlerEffect
  | dispatch : String → String → HandlerEffect
  | mruSync : Option String → HandlerEffect
deriving DecidableEq

/-- Everything a pull/merge handler run reads from its collaborators:
whether `getCurrentRepository` finds a repository and its root path,
the command argument, the repository HEAD name, the configured
templates, the outcome of the base-branch git query (merge only), the
result the terminal executor returns for the dispatch, and whether the
post-dispatch steps throw (with the caught message). -/
structure HandlerEnv where
  repoAvailable : Bool
  repoPath : String
  branchArg : BranchArg
  headName : Option String
  templates : GitCommandTemplates
  baseExec : Except String GitExecOutput
  dispatchResult : TerminalDispatchResult
  postDispatchThrows : Bool
  postDispatchErrorMessage : String

def pullStartNotice (targetBranch : String) : String :=
  "Starting pull for \x27" ++ targetBranch ++ "\x27 in terminal \x27" ++ DEFAULT_TERMINAL_NAME ++ "\x27."

def mergeStartNotice : String :=
  "Starting merge in terminal \x27" ++ DEFAULT_TERMINAL_NAME ++ "\x27."

def continueHint : String :=
  "If a command was started, continue in terminal \x27" ++ DEFAULT_TERMINAL_NAME ++
    "\x27 and use Logs tab for history."

def pullIdleNotice : String :=
  "Pull command sent to \x27" ++ DEFAULT_TERMINAL_NAME ++
    "\x27. Watch terminal output for prompts/conflicts; Logs tab keeps history."

def mergeIdleNotice : String :=
  "Merge command sent to \x27" ++ DEFAULT_TERMINAL_NAME ++
    "\x27. Resolve prompts/conflicts there, then refresh. Logs tab keeps history."

/-- The `rd-git.switchBranch` handler from `activate.ts`, as the trace
of effects it produces.  `none` models the (unreachable for non-empty
defaults) divergence of the template-fallback recursion. -/
def switchBranchHandler (repoAvailable : Bool) (branchName : String)
    (templates : GitCommandTemplates) (repoPath : String)
    (dispatchResult : TerminalDispatchResult) : Option (List HandlerEffect) :=
  if !repoAvailable then
    some [.log ⟨.warn, "commands", "Switch branch requested with no available repository."⟩]
  else
    let targetBranch := normalizeBranchName branchName
    if targetBranch = "" then
      some [.log ⟨.warn, "commands", "Could not determine target branch for switch."⟩]
    else if !isShellSafeGitRef targetBranch then
      some [.log ⟨.error, "commands",
        "Failed to switch branch: Branch \x27" ++ targetBranch ++
          "\x27 has unsupported characters for terminal dispatch. Run switch manually in terminal."⟩]
    else
      match renderGitCommandTemplate templates.switchBranch [(targetBranchKey, targetBranch)]
          DEFAULT_GIT_COMMAND_TEMPLATES.switchBranch switchBranchKey with
      | (none, _) => none
      | (some command, renderLogs) =>
        some (renderLogs.map HandlerEffect.log ++
          [.dispatch repoPath command] ++
          (logTerminalDispatchResult ("Switch to \x27" ++ targetBranch ++ "\x27") command
            dispatchResult).map HandlerEffect.log)

/-- The `rd-git.pullFromOrigin` handler from `activate.ts`, as the
trace of effects it produces. -/
def pullFromOriginHandler (env : HandlerEnv) : Option (List HandlerEffect) :=
  if !env.repoAvailable then
    some [.log ⟨.warn, "commands", "Pull from origin requested with no available repository."⟩]
  else
    let targetBranch := normalizeBranchName (getBranchName env.branchArg)
    if targetBranch = "" then
      some [.log ⟨.warn, "commands", "Could not determine target branch for pull from origin."⟩]
    else
      let startEffects : List HandlerEffect :=
        [.setOpState ⟨true, some .pullFromOrigin, DEFAULT_TERMINAL_NAME, pullStartNotice targetBranch⟩]
      let currentBranch := normalizeBranchName (env.headName.getD (""))
      match renderGitCommandTemplate env.templates.switchBranch [(targetBranchKey, targetBranch)]
          DEFAULT_GIT_COMMAND_TEMPLATES.switchBranch switchBranchKey with
      | (none, _) => none
      | (some switchCommand, switchLogs) =>
      match renderGitCommandTemplate env.templates.pullFromOrigin [(targetBranchKey, targetBranch)]
          DEFAULT_GIT_COMMAND_TEMPLATES.pullFromOrigin pullFromOriginKey with
      | (none, _) => none
      | (some pullCommand, pullLogs) =>
        let composed :=
          if currentBranch ≠ targetBranch then
            (switchCommand ++ " && " ++ pullCommand,
              [HandlerEffect.log ⟨.info, "commands",
                "Will switch to \x27" ++ targetBranch ++ "\x27 before pull."⟩])
          else (pullCommand, ([] : List HandlerEffect))
        let commandToRun := composed.1
        let preDispatch := startEffects ++ switchLogs.map HandlerEffect.log ++
          pullLogs.map HandlerEffect.log ++ composed.2
        let result := env.dispatchResult
        let dispatchLogs :=
          (logTerminalDispatchResult ("Pull \x27" ++ targetBranch ++ "\x27") commandToRun
            result).map HandlerEffect.log
        if !result.ok then
          some (preDispatch ++ [.dispatch env.repoPath commandToRun] ++ dispatchLogs)
        else
          let postEffects : List HandlerEffect :=
            if env.postDispatchThrows then
              [.log ⟨.error, "commands", "Pull from origin failed: " ++ env.postDispatchErrorMessage⟩,
                .log ⟨.warn, "commands", continueHint⟩]
            else
              [.mruSync env.headName,
                .log ⟨.info, "commands",
                  "Watch terminal output for merge conflicts, auth prompts, and completion status."⟩]
          some (preDispatch ++ [.dispatch env.repoPath commandToRun] ++ dispatchLogs ++ postEffects ++
            [.setOpState ⟨false, none, DEFAULT_TERMINAL_NAME, pullIdleNotice⟩])

/-- The `rd-git.mergeFromBase` handler from `activate.ts`, as the trace
of effects it produces.  Note the in-progress state write precedes the
shell-safety check, and the check precedes the dispatch. -/
def mergeFromBaseHandler (env : HandlerEnv) : Option (List HandlerEffect) :=
  if !env.repoAvailable then
    some [.log ⟨.warn, "commands", "Merge from base requested with no available repository."⟩]
  else
    let targetBranch := normalizeBranchName (getBranchName env.branchArg)
    if targetBranch = "" then
      some [.log ⟨.warn, "commands", "Could not determine target branch for merge from base."⟩]
    else
      let startEffects : List HandlerEffect :=
        [.setOpState ⟨true, some .mergeFromBase, DEFAULT_TERMINAL_NAME, mergeStartNotice⟩]
      let baseResolved := resolveBaseBranch env.baseExec
      let baseBranch := baseResolved.1
      let currentBranch := normalizeBranchName (env.headName.getD (""))
      match renderGitCommandTemplate env.templates.switchBranch [(targetBranchKey, targetBranch)]
          DEFAULT_GIT_COMMAND_TEMPLATES.switchBranch switchBranchKey with
      | (none, _) => none
      | (some switchCommand, switchLogs) =>
      match renderGitCommandTemplate env.templates.mergeFromBase
          [(targetBranchKey, targetBranch), (baseBranchKey, baseBranch)]
          DEFAULT_GIT_COMMAND_TEMPLATES.mergeFromBase mergeFromBaseKey with
      | (none, _) => none
      | (some mergeCommand, mergeLogs) =>
        let preCheck := startEffects ++ baseResolved.2.map HandlerEffect.log ++
          switchLogs.map HandlerEffect.log ++ mergeLogs.map HandlerEffect.log
        if !isShellSafeGitRef baseBranch || !isShellSafeGitRef targetBranch then
          some (preCheck ++
            [.log ⟨.error, "commands",
                "Merge failed: Base branch \x27" ++ baseBranch ++
                  "\x27 has unsupported characters for terminal dispatch. Run merge manually in terminal."⟩,
              .log ⟨.warn, "commands", continueHint⟩])
        else
          let composed :=
            if currentBranch ≠ targetBranch then
              (switchCommand ++ " && " ++ mergeCommand,
                [HandlerEffect.log ⟨.info, "commands",
                  "Will switch to \x27" ++ targetBranch ++ "\x27 before merge."⟩])
            else (mergeCommand, ([] : List HandlerEffect))
          let commandToRun := composed.1
          let preDispatch := preCheck ++ composed.2
          let result := env.dispatchResult
          let dispatchLogs :=
            (logTerminalDispatchResult
              ("Merge \x27" ++ baseBranch ++ "\x27 into \x27" ++ targetBranch ++ "\x27")
              commandToRun result).map HandlerEffect.log
          if !result.ok then
            some (preDispatch ++ [.dispatch env.repoPath commandToRun] ++ dispatchLogs)
          else
            let postEffects : List HandlerEffect :=
              if env.postDispatchThrows then
                [.log ⟨.error, "commands", "Merge failed: " ++ env.postDispatchErrorMessage⟩,
                  .log ⟨.warn, "commands", continueHint⟩]
              else
                [.mruSync env.headName,
                  .log ⟨.info, "commands",
                    "Resolve merge conflicts in the terminal. After resolving, run git add + git merge --continue (or git merge --abort)."⟩]
            some (preDispatch ++ [.dispatch env.repoPath commandToRun] ++ dispatchLogs ++ postEffects ++
              [.setOpState ⟨false, none, DEFAULT_TERMINAL_NAME, mergeIdleNotice⟩])

/-! ## Trace observations -/

def isDispatchEffect : HandlerEffect → Bool
  | .dispatch _ _ => true
  | _ => false

def dispatchCount (trace : List HandlerEffect) : Nat :=
  (trace.filter isDispatchEffect).length

def isErrorLogEffect : HandlerEffect → Bool
  | .log entry => entry.level == LogLevel.error
  | _ => false

def hasErrorLog (trace : List HandlerEffect) : Bool :=
  trace.any isErrorLogEffect

def isIdleSetEffect : HandlerEffect → Bool
  | .setOpState s => !s.isInProgress
  | _ => false

/-- The `GitOperationState` visible after a trace ran, starting from
`init`. -/
def finalOpState (init : GitOperationState) (trace : List HandlerEffect) : GitOperationState :=
  trace.foldl (fun s e => match e with | .setOpState s2 => s2 | _ => s) init

/-! ## Terminal command dispatcher
(`GitTerminalExecutor` in `src/app/webview/context/WebviewAppContext.tsx`) -/

/-- A host terminal: `id` models object identity, `name` the display
name, `cwd` the directory it was created in. -/
structure Terminal where
  id : Nat
  name : String
  cwd : String
deriving DecidableEq

/-- The host window: currently open terminals, plus a fresh-id counter
for `createTerminal`. -/
structure WindowState where
  terminals : List Terminal
  nextId : Nat
deriving DecidableEq

/-- The executor's own state: its configured logical terminal name and
the tracked terminal reference (cleared by the close event). -/
structure ExecutorState where
  terminalName : String
  tracked : Option Terminal
deriving DecidableEq

/-- Which host calls throw during a `runCommand` run, with the message
`toErrorMessage` would produce for the thrown value (`none` means the
step succeeds). -/
structure StepFailures where
  createFails : Option String
  showFails : Option String
  focusFails : Option String
  sendFails1 : Option String
  sendFails2 : Option String
deriving DecidableEq

/-- `escapeDoubleQuotes` from the source. -/
def escapeDoubleQuotes (value : String) : String :=
  replaceAllStr value ("\"") ("\\\"")

/-- `ensureTerminal`: reuse the tracked terminal while it is still
open, else search the open terminals by the configured name, else
create a new one rooted at `repositoryPath`; `.error` models a throwing
`createTerminal`. -/
def ensureTerminal (w : WindowState) (ex : ExecutorState) (repositoryPath : String)
    (createFails : Option String) :
    Except String (Terminal × Lifecycle × WindowState × ExecutorState) :=
  let existingTerminal :=
    match ex.tracked with
    | some tracked =>
      if w.terminals.contains tracked then some tracked
      else w.terminals.find? (fun terminal => terminal.name == ex.terminalName)
    | none => w.terminals.find? (fun terminal => terminal.name == ex.terminalName)
  match existingTerminal with
  | some terminal => .ok (terminal, .reused, w, ⟨ex.terminalName, some terminal⟩)
  | none =>
    match createFails with
    | some msg => .error msg
    | none =>
      let terminal : Terminal := ⟨w.nextId, ex.terminalName, repositoryPath⟩
      .ok (terminal, .created, ⟨w.terminals ++ [terminal], w.nextId + 1⟩,
        ⟨ex.terminalName, some terminal⟩)

/-- Everything observable about one `runCommand` call: the structured
result, the window and executor states afterwards, which terminal was
shown (if the show step ran and succeeded), whether the focus command
was issued, and the text lines submitted to the terminal. -/
structure DispatchOutcome where
  result : TerminalDispatchResult
  window : WindowState
  executor : ExecutorState
  shown : Option Terminal
  focusRequested : Bool
  sentLines : List String
deriving DecidableEq

/-- `GitTerminalExecutor.runCommand`: acquire (create or reuse), show,
focus, send a `cd` line then the command line; each step's failure
short-circuits the remaining steps and is reported in the result. -/
def runCommand (w : WindowState) (ex : ExecutorState) (repositoryPath command : String)
    (failures : StepFailures) : DispatchOutcome :=
  match ensureTerminal w ex repositoryPath failures.createFails with
  | .error msg =>
    ⟨⟨false, ex.terminalName, .reused, some msg, some .createOrReuse⟩, w, ex, none, false, []⟩
  | .ok (terminal, lifecycle, w1, ex1) =>
    match failures.showFails with
    | some msg =>
      ⟨⟨false, terminal.name, lifecycle, some msg, some .showTerminal⟩, w1, ex1, none, false, []⟩
    | none =>
    match failures.focusFails with
    | some msg =>
      ⟨⟨false, terminal.name, lifecycle, some msg, some .focus⟩, w1, ex1, some terminal, false, []⟩
    | none =>
    match failures.sendFails1 with
    | some msg =>
      ⟨⟨false, terminal.name, lifecycle, some msg, some .sendText⟩, w1, ex1, some terminal, true, []⟩
    | none =>
      let cdLine := "cd \"" ++ escapeDoubleQuotes repositoryPath ++ "\""
      match failures.sendFails2 with
      | some msg =>
        ⟨⟨false, terminal.name, lifecycle, some msg, some .sendText⟩, w1, ex1, some terminal, true,
          [cdLine]⟩
      | none =>
        ⟨⟨true, terminal.name, lifecycle, none, none⟩, w1, ex1, some terminal, true,
          [cdLine, command]⟩

/-! ## Concrete instances used in witnesses and counterexamples -/

/-- A dispatch result reporting success with a reused terminal. -/
def okDispatchResult : TerminalDispatchResult :=
  ⟨true, DEFAULT_TERMINAL_NAME, .reused, none, none⟩

/-- Pull invoked with the shell-unsafe branch name `bad;branch` while
HEAD is `main`, default templates, successful dispatch. -/
def envPullUnsafe : HandlerEnv :=
  ⟨true, "/repo", .str ("bad;branch"), some ("main"), DEFAULT_GIT_COMMAND_TEMPLATES,
    .ok ⟨"", ""⟩, okDispatchResult, false, ""⟩

/-- Merge invoked with safe target `feature-x` but a base-branch query
answering the shell-unsafe `bad;base`. -/
def envMergeUnsafeBase : HandlerEnv :=
  ⟨true, "/repo", .str ("feature-x"), some ("main"), DEFAULT_GIT_COMMAND_TEMPLATES,
    .ok ⟨"bad;base", ""⟩, okDispatchResult, false, ""⟩

def trMergeUnsafeBase : List HandlerEffect :=
  (mergeFromBaseHandler envMergeUnsafeBase).getD []

/-- A git-operation state that held before a handler ran. -/
def priorOpState : GitOperationState :=
  ⟨false, none, DEFAULT_TERMINAL_NAME, "prior notice"⟩

/-- End-to-end scenario 3 of the spec: merge with the default merge
template, base query answering `origin/develop`, target `feature-x`,
HEAD already `feature-x`. -/
def envMergeScenario3 : HandlerEnv :=
  ⟨true, "/repo", .str ("feature-x"), some ("feature-x"), DEFAULT_GIT_COMMAND_TEMPLATES,
    .ok ⟨"origin/develop", ""⟩, okDispatchResult, false, ""⟩

def trMergeScenario3 : List HandlerEffect :=
  (mergeFromBaseHandler envMergeScenario3).getD []

/-- Pull for `release-1` while HEAD is `main`, successful dispatch. -/
def envPullRelease : HandlerEnv :=
  ⟨true, "/repo", .str ("release-1"), some ("main"), DEFAULT_GIT_COMMAND_TEMPLATES,
    .ok ⟨"", ""⟩, okDispatchResult, false, ""⟩

def trPullRelease : List HandlerEffect :=
  (pullFromOriginHandler envPullRelease).getD []

/-- A window with one open terminal already named `RDgit`. -/
def windowWithRdGit : WindowState := ⟨[⟨0, "RDgit", "/old"⟩], 1⟩

def execFresh : ExecutorState := ⟨"RDgit", none⟩

def noStepFailures : StepFailures := ⟨none, none, none, none, none⟩

/-- Twenty-one pairwise distinct stored branch names. -/
def storedTwentyOne : List String := (List.range 21).map (fun i => "b" ++ toString i)

/-- The switch handler invoked with the shell-unsafe name
`bad;branch`. -/
def trSwitchUnsafe : List HandlerEffect :=
  (switchBranchHandler true ("bad;branch") DEFAULT_GIT_COMMAND_TEMPLATES ("/repo")
    okDispatchResult).getD []

/-- Merge invoked with the shell-unsafe target `bad;target` while the
base query answers `origin/main`. -/
def envMergeUnsafeTarget : HandlerEnv :=
  ⟨true, "/repo", .str ("bad;target"), some ("main"), DEFAULT_GIT_COMMAND_TEMPLATES,
    .ok ⟨"origin/main", ""⟩, okDispatchResult, false, ""⟩

def trMergeUnsafeTarget : List HandlerEffect :=
  (mergeFromBaseHandler envMergeUnsafeTarget).getD []

/-! # Theorems -/

/-! ## String-level helper lemmas -/

theorem strStartsWith_iff {s p : String} :
    strStartsWith s p = true ↔ p.data <+: s.data := by
  simp [strStartsWith, List.isPrefixOf_iff_prefix]

theorem strStartsWith_append (p x : String) : strStartsWith (p ++ x) p = true := by
  rw [strStartsWith_iff, String.data_append]
  exact List.prefix_append p.data x.data

theorem strDrop_append (p x : String) : strDrop (p ++ x) p.length = x := by
  apply String.ext
  show (p.data ++ x.data).drop p.length = x.data
  exact List.drop_left' rfl

theorem headsPre_not_refsHeads (x : String) :
    strStartsWith (headsPre ++ x) refsHeadsPre = false := by
  by_contra hcontra
  have h : strStartsWith (headsPre ++ x) refsHeadsPre = true := by
    revert hcontra
    cases strStartsWith (headsPre ++ x) refsHeadsPre <;> simp
  rw [strStartsWith_iff] at h
  have hdata : (headsPre ++ x).data = 'h' :: ('e' :: ('a' :: ('d' :: ('s' :: ('/' :: x.data))))) := rfl
  have hrdata : refsHeadsPre.data = 'r' :: ('e' :: ('f' :: ('s' :: ('/' :: ('h' :: ('e' :: ('a' :: ('d' :: ('s' :: ('/' :: ([] : List Char))))))))))) := rfl
  rw [hdata, hrdata, List.cons_prefix_cons] at h
  exact absurd h.1 (by decide)

theorem normalize_of_not_prefixed {s : String}
    (h1 : strStartsWith s refsHeadsPre = false)
    (h2 : strStartsWith s headsPre = false) :
    normalizeBranchName s = s := by
  simp [normalizeBranchName, h1, h2]

/-- C3, refuted as stated: normalization is not idempotent (a second
application strips a second prefix), and a string `x` that itself
carries a `heads/` prefix does not normalize to `x`; witnessed at
`refs/heads/heads/a` and `heads/a`. -/
theorem c3_counterexample :
    normalizeBranchName (normalizeBranchName ("refs/heads/heads/a")) ≠
      normalizeBranchName ("refs/heads/heads/a") ∧
    normalizeBranchName ("refs/heads/" ++ "heads/a") = normalizeBranchName ("heads/" ++ "heads/a") ∧
    normalizeBranchName ("heads/a") ≠ "heads/a" := by
  refine ⟨by decide, by decide, by decide⟩

/-- C3, amended: `normalizeBranchName` strips exactly one leading
`refs/heads/` or `heads/` prefix, so it is idempotent on every string
whose normalization does not itself start with either prefix, and
`refs/heads/` ++ x, `heads/` ++ x and `x` all normalize to `x` for
every `x` that starts with neither prefix. -/
theorem c3_normalize_amended (b x : String) :
    ((strStartsWith (normalizeBranchName b) refsHeadsPre = false →
       strStartsWith (normalizeBranchName b) headsPre = false →
       normalizeBranchName (normalizeBranchName b) = normalizeBranchName b)) ∧
    (strStartsWith x refsHeadsPre = false → strStartsWith x headsPre = false →
      normalizeBranchName (refsHeadsPre ++ x) = x ∧
      normalizeBranchName (headsPre ++ x) = x ∧
      normalizeBranchName x = x) := by
  constructor
  · intro h1 h2
    exact normalize_of_not_prefixed h1 h2
  · intro h1 h2
    refine ⟨?_, ?_, normalize_of_not_prefixed h1 h2⟩
    · rw [normalizeBranchName, if_pos (strStartsWith_append refsHeadsPre x)]
      exact strDrop_append refsHeadsPre x
    · rw [normalizeBranchName, if_neg, if_pos (strStartsWith_append headsPre x)]
      · exact strDrop_append headsPre x
      · simp [headsPre_not_refsHeads x]

/-- Witness for the amended C3 at `b := feature-x`, `x := dev`. -/
theorem c3_witness :
    normalizeBranchName (normalizeBranchName ("feature-x")) = normalizeBranchName ("feature-x") ∧
    normalizeBranchName ("refs/heads/" ++ "dev") = "dev" ∧
    normalizeBranchName ("heads/" ++ "dev") = "dev" ∧
    normalizeBranchName ("dev") = "dev" := by
  have h := c3_normalize_amended ("feature-x") ("dev")
  have h2 := h.2 (by decide) (by decide)
  exact ⟨h.1 (by decide) (by decide), h2.1, h2.2.1, h2.2.2⟩

/-! ## MRU store lemmas -/

theorem string_contains_iff (seen : List String) (x : String) :
    seen.contains x = true ↔ x ∈ seen := by
  simp [List.contains_iff_exists_mem_beq]

theorem mem_mruDedup : ∀ (l seen : List String) (x : String),
    x ∈ mruDedup seen l → x ∉ seen ∧ x ≠ ""
  | [], seen, x => by simp [mruDedup]
  | name :: rest, seen, x => by
    by_cases hc : (name == "" || seen.contains name) = true
    · rw [mruDedup, if_pos hc]
      exact mem_mruDedup rest seen x
    · rw [mruDedup, if_neg hc]
      simp only [Bool.or_eq_true, beq_iff_eq, not_or] at hc
      intro hx
      rcases List.mem_cons.mp hx with rfl | hx2
      · exact ⟨fun hmem => hc.2 ((string_contains_iff seen x).mpr hmem), hc.1⟩
      · have h2 := mem_mruDedup rest (name :: seen) x hx2
        exact ⟨fun hmem => h2.1 (List.mem_cons_of_mem name hmem), h2.2⟩

theorem mruDedup_nodup : ∀ (l seen : List String), (mruDedup seen l).Nodup
  | [], seen => by simp [mruDedup]
  | name :: rest, seen => by
    by_cases hc : (name == "" || seen.contains name) = true
    · rw [mruDedup, if_pos hc]
      exact mruDedup_nodup rest seen
    · rw [mruDedup, if_neg hc]
      refine List.nodup_cons.mpr ⟨?_, mruDedup_nodup rest (name :: seen)⟩
      intro hmem
      exact (mem_mruDedup rest (name :: seen) name hmem).1 (List.mem_cons_self name seen)

theorem mruDedup_length : ∀ (l seen : List String), (mruDedup seen l).length ≤ l.length
  | [], _ => Nat.le_refl 0
  | name :: rest, seen => by
    by_cases hc : (name == "" || seen.contains name) = true
    · rw [mruDedup, if_pos hc]
      exact Nat.le_trans (mruDedup_length rest seen) (Nat.le_succ rest.length)
    · rw [mruDedup, if_neg hc]
      exact Nat.succ_le_succ (mruDedup_length rest (name :: seen))

theorem mruDedup_cons_ne_empty (name : String) (rest : List String) (h : name ≠ "") :
    mruDedup [] (name :: rest) = name :: mruDedup [name] rest := by
  rw [mruDedup, if_neg]
  simp [h]

theorem updateMruBranch_eq (raw : List String) (b : String) :
    updateMruBranch raw b =
      normalizeBranchName b ::
        ((getMruForCurrentRepo raw).filter
          (fun name => name != normalizeBranchName b)).take 19 := by
  simp [updateMruBranch, MAX_STORED_BRANCHES, List.take_succ_cons]

/-- C4, refuted as stated: (a) the first element of the read-back list
is the result of normalizing twice, not of normalizing once, because
the stored once-normalized name is normalized again on read; (b) with
no recording calls an oversized pre-existing stored array is returned
beyond 20 entries; (c) a name normalizing to empty is dropped rather
than surfacing first. -/
theorem c4_counterexample :
    ((getMruForCurrentRepo (applyVisits [] (["refs/heads/heads/a"]))).head? = some ("a") ∧
      normalizeBranchName ("refs/heads/heads/a") = "heads/a") ∧
    (getMruForCurrentRepo (applyVisits storedTwentyOne [])).length = 21 ∧
    ((getMruForCurrentRepo (applyVisits [] (["x", "heads/"]))).head? = some ("x") ∧
      normalizeBranchName ("heads/") = "") := by
  exact ⟨⟨by decide, by decide⟩, by decide, by decide, by decide⟩

/-- C4, amended: after a nonempty sequence of `updateMruBranch` calls
from any stored state, the read-back list is duplicate-free and holds
at most 20 entries, and its first element is the double normalization
of the most recently recorded name whenever that is nonempty. -/
theorem c4_mru_amended (raw visits : List String) (b : String) :
    (getMruForCurrentRepo (applyVisits raw (visits ++ [b]))).Nodup ∧
    (getMruForCurrentRepo (applyVisits raw (visits ++ [b]))).length ≤ MAX_STORED_BRANCHES ∧
    (normalizeBranchName (normalizeBranchName b) ≠ "" →
      (getMruForCurrentRepo (applyVisits raw (visits ++ [b]))).head? =
        some (normalizeBranchName (normalizeBranchName b))) := by
  have happ : applyVisits raw (visits ++ [b]) = updateMruBranch (applyVisits raw visits) b := by
    simp [applyVisits, List.foldl_append]
  rw [happ, updateMruBranch_eq]
  refine ⟨mruDedup_nodup _ _, ?_, ?_⟩
  · have h1 := mruDedup_length
      ((normalizeBranchName b ::
        ((getMruForCurrentRepo (applyVisits raw visits)).filter
          (fun name => name != normalizeBranchName b)).take 19).map normalizeBranchName) []
    rw [List.length_map, List.length_cons] at h1
    have h2 := List.length_take_le 19
      ((getMruForCurrentRepo (applyVisits raw visits)).filter
        (fun name => name != normalizeBranchName b))
    calc (getMruForCurrentRepo
            (normalizeBranchName b ::
              ((getMruForCurrentRepo (applyVisits raw visits)).filter
                (fun name => name != normalizeBranchName b)).take 19)).length
        ≤ _ + 1 := h1
      _ ≤ MAX_STORED_BRANCHES := by
          simp only [MAX_STORED_BRANCHES]
          omega
  · intro hne
    show (mruDedup []
      ((normalizeBranchName b :: _).map normalizeBranchName)).head? = _
    rw [List.map_cons, mruDedup_cons_ne_empty _ _ hne]
    rfl

/-- Witness for the amended C4: one recording call of `feature-x` on an
empty store. -/
theorem c4_witness :
    (getMruForCurrentRepo (applyVisits [] ([] ++ ["feature-x"]))).head? =
      some (normalizeBranchName (normalizeBranchName ("feature-x"))) ∧
    (getMruForCurrentRepo (applyVisits [] ([] ++ ["feature-x"]))).length ≤ MAX_STORED_BRANCHES :=
  ⟨(c4_mru_amended [] [] ("feature-x")).2.2 (by decide), (c4_mru_amended [] [] ("feature-x")).2.1⟩

/-- C7, confirmed: the ranked view holds at most 5 entries, and when
the resolved base branch is present in the deduplicated MRU list it is
the first entry of the view. -/
theorem c7_ranked_view (raw : List String) (base : String) (headName : Option String)
    (describe : String → String) :
    (getRecentBranches raw base headName describe).length ≤ MAX_VISIBLE_BRANCHES ∧
    (base ∈ getMruForCurrentRepo raw →
      ((getRecentBranches raw base headName describe).head?).map RecentBranch.name =
        some base) := by
  constructor
  · show (List.map _ (List.take MAX_VISIBLE_BRANCHES _)).length ≤ MAX_VISIBLE_BRANCHES
    rw [List.length_map]
    exact List.length_take_le MAX_VISIBLE_BRANCHES _
  · intro hmem
    have hne : base ≠ "" := (mem_mruDedup (raw.map normalizeBranchName) [] base hmem).2
    show (List.map _ (List.take MAX_VISIBLE_BRANCHES
      ((if base == "" then [] else [base]) ++ _))).head?.map RecentBranch.name = some base
    rw [if_neg (by simpa using hne)]
    simp [MAX_VISIBLE_BRANCHES, List.take_succ_cons]

/-- Witness for C7: the base `dev` stored in the MRU appears first. -/
theorem c7_witness :
    ((getRecentBranches (["dev", "feature-x"]) ("dev") (some ("dev"))
        (fun _ => "no commits")).head?).map RecentBranch.name = some ("dev") :=
  (c7_ranked_view (["dev", "feature-x"]) ("dev") (some ("dev")) (fun _ => "no commits")).2
    (by decide)

/-! ## Trace helper lemmas -/

theorem filter_isIdle_map_log (logs : List LogEntry) :
    (logs.map HandlerEffect.log).filter isIdleSetEffect = [] := by
  induction logs with
  | nil => rfl
  | cons e rest ih => simp [isIdleSetEffect, ih]

theorem filter_isDispatch_map_log (logs : List LogEntry) :
    (logs.map HandlerEffect.log).filter isDispatchEffect = [] := by
  induction logs with
  | nil => rfl
  | cons e rest ih => simp [isDispatchEffect, ih]

theorem dispatchCount_map_log (logs : List LogEntry) :
    dispatchCount (logs.map HandlerEffect.log) = 0 := by
  simp [dispatchCount, filter_isDispatch_map_log]

theorem dispatchCount_append (a b : List HandlerEffect) :
    dispatchCount (a ++ b) = dispatchCount a + dispatchCount b := by
  simp [dispatchCount, List.filter_append]

theorem dispatch_not_mem_map_log (p c : String) (logs : List LogEntry) :
    HandlerEffect.dispatch p c ∉ logs.map HandlerEffect.log := by
  simp

theorem finalOpState_append (init : GitOperationState) (a b : List HandlerEffect) :
    finalOpState init (a ++ b) = finalOpState (finalOpState init a) b := by
  simp [finalOpState, List.foldl_append]

theorem finalOpState_map_log (init : GitOperationState) (logs : List LogEntry) :
    finalOpState init (logs.map HandlerEffect.log) = init := by
  induction logs with
  | nil => rfl
  | cons e rest ih => simpa [finalOpState] using ih

theorem hasErrorLog_append (a b : List HandlerEffect) :
    hasErrorLog (a ++ b) = (hasErrorLog a || hasErrorLog b) := by
  simp [hasErrorLog, List.any_append]

/-- C5, confirmed: whenever a pull or merge run dispatched its command
and the dispatch result reported ok, the trace contains exactly one
idle git-operation-state write — the final `command sent` notice — and
this also holds for runs whose post-dispatch steps throw. -/
theorem c5_idle_exactly_once (env : HandlerEnv) (tr : List HandlerEffect) :
    (pullFromOriginHandler env = some tr → env.dispatchResult.ok = true →
      dispatchCount tr ≠ 0 →
      tr.filter isIdleSetEffect =
        [.setOpState ⟨false, none, DEFAULT_TERMINAL_NAME, pullIdleNotice⟩]) ∧
    (mergeFromBaseHandler env = some tr → env.dispatchResult.ok = true →
      dispatchCount tr ≠ 0 →
      tr.filter isIdleSetEffect =
        [.setOpState ⟨false, none, DEFAULT_TERMINAL_NAME, mergeIdleNotice⟩]) := by
  constructor
  · intro hsome hok hdisp
    simp only [pullFromOriginHandler] at hsome
    iterate 10 all_goals try split at hsome
    all_goals first
      | exact Option.noConfusion hsome
      | (replace hsome := Option.some.inj hsome
         subst hsome
         simp_all [dispatchCount, isDispatchEffect, List.filter_append,
           filter_isDispatch_map_log, filter_isIdle_map_log, isIdleSetEffect])
  · intro hsome hok hdisp
    simp only [mergeFromBaseHandler] at hsome
    iterate 10 all_goals try split at hsome
    all_goals first
      | exact Option.noConfusion hsome
      | (replace hsome := Option.some.inj hsome
         subst hsome
         simp_all [dispatchCount, isDispatchEffect, List.filter_append,
           filter_isDispatch_map_log, filter_isIdle_map_log, isIdleSetEffect])

/-- Witness for C5: the merge of scenario 3 dispatched successfully,
and its trace carries the idle transition exactly once. -/
theorem c5_witness :
    trMergeScenario3.filter isIdleSetEffect =
      [.setOpState ⟨false, none, DEFAULT_TERMINAL_NAME, mergeIdleNotice⟩] :=
  (c5_idle_exactly_once envMergeScenario3 trMergeScenario3).2 (by decide) (by decide) (by decide)

/-- C8, confirmed: every command a pull or merge run dispatches is the
rendered pull/merge template alone when the normalized HEAD equals the
normalized target, and the rendered switch template joined with
`.&&.` and the pull/merge template otherwise. -/
theorem c8_dispatched_command (env : HandlerEnv) (tr : List HandlerEffect) (p c : String) :
    (pullFromOriginHandler env = some tr → HandlerEffect.dispatch p c ∈ tr →
      ∃ switchCommand pullCommand,
        (renderGitCommandTemplate env.templates.switchBranch
            [(targetBranchKey, normalizeBranchName (getBranchName env.branchArg))]
            DEFAULT_GIT_COMMAND_TEMPLATES.switchBranch switchBranchKey).1 = some switchCommand ∧
        (renderGitCommandTemplate env.templates.pullFromOrigin
            [(targetBranchKey, normalizeBranchName (getBranchName env.branchArg))]
            DEFAULT_GIT_COMMAND_TEMPLATES.pullFromOrigin pullFromOriginKey).1 = some pullCommand ∧
        c = (if normalizeBranchName (env.headName.getD ("")) =
                normalizeBranchName (getBranchName env.branchArg)
             then pullCommand else switchCommand ++ " && " ++ pullCommand)) ∧
    (mergeFromBaseHandler env = some tr → HandlerEffect.dispatch p c ∈ tr →
      ∃ switchCommand mergeCommand,
        (renderGitCommandTemplate env.templates.switchBranch
            [(targetBranchKey, normalizeBranchName (getBranchName env.branchArg))]
            DEFAULT_GIT_COMMAND_TEMPLATES.switchBranch switchBranchKey).1 = some switchCommand ∧
        (renderGitCommandTemplate env.templates.mergeFromBase
            [(targetBranchKey, normalizeBranchName (getBranchName env.branchArg)),
              (baseBranchKey, (resolveBaseBranch env.baseExec).1)]
            DEFAULT_GIT_COMMAND_TEMPLATES.mergeFromBase mergeFromBaseKey).1 = some mergeCommand ∧
        c = (if normalizeBranchName (env.headName.getD ("")) =
                normalizeBranchName (getBranchName env.branchArg)
             then mergeCommand else switchCommand ++ " && " ++ mergeCommand)) := by
  constructor
  · intro hsome hmem
    simp only [pullFromOriginHandler] at hsome
    iterate 10 all_goals try split at hsome
    all_goals first
      | exact Option.noConfusion hsome
      | (replace hsome := Option.some.inj hsome
         subst hsome
         simp_all)
  · intro hsome hmem
    simp only [mergeFromBaseHandler] at hsome
    iterate 10 all_goals try split at hsome
    all_goals first
      | exact Option.noConfusion hsome
      | (replace hsome := Option.some.inj hsome
         subst hsome
         simp_all)

/-- Witness for C8 at end-to-end scenario 3: with the default merge
template, base resolved as `develop`, target `feature-x` and HEAD
`feature-x`, the dispatched text is exactly `git merge develop`. -/
theorem c8_witness :
    ∃ switchCommand mergeCommand,
      (renderGitCommandTemplate envMergeScenario3.templates.switchBranch
          [(targetBranchKey, normalizeBranchName (getBranchName envMergeScenario3.branchArg))]
          DEFAULT_GIT_COMMAND_TEMPLATES.switchBranch switchBranchKey).1 = some switchCommand ∧
      (renderGitCommandTemplate envMergeScenario3.templates.mergeFromBase
          [(targetBranchKey, normalizeBranchName (getBranchName envMergeScenario3.branchArg)),
            (baseBranchKey, (resolveBaseBranch envMergeScenario3.baseExec).1)]
          DEFAULT_GIT_COMMAND_TEMPLATES.mergeFromBase mergeFromBaseKey).1 = some mergeCommand ∧
      ("git merge develop" : String) =
        (if normalizeBranchName (envMergeScenario3.headName.getD ("")) =
            normalizeBranchName (getBranchName envMergeScenario3.branchArg)
         then mergeCommand else switchCommand ++ " && " ++ mergeCommand) :=
  (c8_dispatched_command envMergeScenario3 trMergeScenario3 ("/repo") ("git merge develop")).2
    (by decide) (by decide)

/-! ## C1: shell-safety validation before dispatch -/

theorem unsafe_not_shellSafe {s : String} (h : containsUnsafeChar s = true) :
    isShellSafeGitRef s = false := by
  simp only [containsUnsafeChar, List.any_eq_true, Bool.not_eq_true'] at h
  obtain ⟨c, hc, hcu⟩ := h
  simp only [isShellSafeGitRef, Bool.and_eq_false_iff]
  right
  rw [List.all_eq_false]
  exact ⟨c, hc, by simp_all⟩

theorem unsafe_ne_empty {s : String} (h : containsUnsafeChar s = true) : s ≠ "" := by
  intro hempty
  subst hempty
  exact absurd h (by decide)

theorem containsUnsafeChar_normalize {s : String} (h : containsUnsafeChar s = true) :
    containsUnsafeChar (normalizeBranchName s) = true := by
  rw [normalizeBranchName]
  by_cases h1 : strStartsWith s refsHeadsPre = true
  · rw [if_pos h1]
    obtain ⟨rest, hrest⟩ := strStartsWith_iff.mp h1
    have hdrop : (strDrop s refsHeadsPre.length).data = rest := by
      show s.data.drop refsHeadsPre.length = rest
      rw [← hrest]
      exact List.drop_left' rfl
    simp only [containsUnsafeChar, List.any_eq_true] at h ⊢
    rw [hdrop]
    obtain ⟨c, hc, hcu⟩ := h
    refine ⟨c, ?_, hcu⟩
    rw [← hrest, List.mem_append] at hc
    rcases hc with hc | hc
    · exact absurd hcu (by fin_cases hc <;> decide)
    · exact hc
  · rw [if_neg h1]
    by_cases h2 : strStartsWith s headsPre = true
    · rw [if_pos h2]
      obtain ⟨rest, hrest⟩ := strStartsWith_iff.mp h2
      have hdrop : (strDrop s headsPre.length).data = rest := by
        show s.data.drop headsPre.length = rest
        rw [← hrest]
        exact List.drop_left' rfl
      simp only [containsUnsafeChar, List.any_eq_true] at h ⊢
      rw [hdrop]
      obtain ⟨c, hc, hcu⟩ := h
      refine ⟨c, ?_, hcu⟩
      rw [← hrest, List.mem_append] at hc
      rcases hc with hc | hc
      · exact absurd hcu (by fin_cases hc <;> decide)
      · exact hc
    · rw [if_neg h2]
      exact h

theorem normalize_unsafe_ne_empty {s : String} (h : containsUnsafeChar s = true) :
    normalizeBranchName s ≠ "" :=
  unsafe_ne_empty (containsUnsafeChar_normalize h)

/-- C1, refuted as stated: the pull-from-origin handler performs no
shell-safety validation; with the shell-unsafe name `bad;branch` it
still invokes the terminal dispatch (exactly one `runCommand` call). -/
theorem c1_counterexample :
    containsUnsafeChar ("bad;branch") = true ∧
    (pullFromOriginHandler envPullUnsafe).map dispatchCount = some 1 := by
  exact ⟨by decide, by decide⟩

/-- C1, amended: the switch-branch and merge-from-base handlers reject
a branch name containing a character outside the safe class before any
terminal dispatch — `runCommand` is never invoked and an error is
logged — while pull-from-origin performs no such validation. -/
theorem c1_switch_merge_reject (branchName repoPath : String)
    (templates : GitCommandTemplates) (dispatchResult : TerminalDispatchResult)
    (env : HandlerEnv) (tr tr2 : List HandlerEffect) :
    (containsUnsafeChar branchName = true →
      switchBranchHandler true branchName templates repoPath dispatchResult = some tr →
      dispatchCount tr = 0 ∧ hasErrorLog tr = true) ∧
    (containsUnsafeChar (getBranchName env.branchArg) = true →
      env.repoAvailable = true →
      mergeFromBaseHandler env = some tr2 →
      dispatchCount tr2 = 0 ∧ hasErrorLog tr2 = true) := by
  constructor
  · intro hunsafe hsome
    have hn := containsUnsafeChar_normalize hunsafe
    have hne := unsafe_ne_empty hn
    have hss := unsafe_not_shellSafe hn
    simp only [switchBranchHandler, hss, hne] at hsome
    simp only [Bool.not_true, Bool.not_false, Bool.false_eq_true, if_false, if_neg hne,
      Bool.true_eq_false, ite_false, ite_true] at hsome
    all_goals first
      | exact Option.noConfusion hsome
      | (replace hsome := Option.some.inj hsome
         subst hsome
         simp_all [dispatchCount, isDispatchEffect, hasErrorLog, isErrorLogEffect])
  · intro hunsafe hrepo hsome
    have hn := containsUnsafeChar_normalize hunsafe
    have hne := unsafe_ne_empty hn
    have hss := unsafe_not_shellSafe hn
    simp only [mergeFromBaseHandler, hrepo] at hsome
    iterate 10 all_goals try split at hsome
    all_goals first
      | exact Option.noConfusion hsome
      | (replace hsome := Option.some.inj hsome
         subst hsome
         simp_all [dispatchCount, isDispatchEffect, List.filter_append,
           filter_isDispatch_map_log, hasErrorLog, isErrorLogEffect, List.any_append])

/-- Witness for the amended C1: switch of `bad;branch` and merge onto
`bad;target` both produce no dispatch and an error log. -/
theorem c1_witness :
    (dispatchCount trSwitchUnsafe = 0 ∧ hasErrorLog trSwitchUnsafe = true) ∧
    (dispatchCount trMergeUnsafeTarget = 0 ∧ hasErrorLog trMergeUnsafeTarget = true) :=
  ⟨(c1_switch_merge_reject ("bad;branch") ("/repo") DEFAULT_GIT_COMMAND_TEMPLATES
      okDispatchResult envMergeUnsafeTarget trSwitchUnsafe trMergeUnsafeTarget).1
      (by decide) (by decide),
    (c1_switch_merge_reject ("bad;branch") ("/repo") DEFAULT_GIT_COMMAND_TEMPLATES
      okDispatchResult envMergeUnsafeTarget trSwitchUnsafe trMergeUnsafeTarget).2
      (by decide) (by decide) (by decide)⟩

theorem finalOpState_nil (init : GitOperationState) : finalOpState init [] = init := rfl

theorem finalOpState_cons_set (init s : GitOperationState) (rest : List HandlerEffect) :
    finalOpState init (HandlerEffect.setOpState s :: rest) = finalOpState s rest := rfl

theorem finalOpState_cons_log (init : GitOperationState) (e : LogEntry)
    (rest : List HandlerEffect) :
    finalOpState init (HandlerEffect.log e :: rest) = finalOpState init rest := rfl

theorem finalOpState_cons_dispatch (init : GitOperationState) (p c : String)
    (rest : List HandlerEffect) :
    finalOpState init (HandlerEffect.dispatch p c :: rest) = finalOpState init rest := rfl

theorem finalOpState_cons_mruSync (init : GitOperationState) (h : Option String)
    (rest : List HandlerEffect) :
    finalOpState init (HandlerEffect.mruSync h :: rest) = finalOpState init rest := rfl

/-- C2, refuted as stated: a pre-dispatch shell-safety failure in the
merge handler does not leave the prior git-operation state in place —
the handler had already written the in-progress state, and the
finalizer (guarded by `hasStarted`) never resets it. -/
theorem c2_counterexample :
    mergeFromBaseHandler envMergeUnsafeBase = some trMergeUnsafeBase ∧
    finalOpState priorOpState trMergeUnsafeBase ≠ priorOpState ∧
    dispatchCount trMergeUnsafeBase = 0 := by
  exact ⟨by decide, by decide, by decide⟩

/-- C2, amended: when the merge handler reaches its shell-safety check
and the check fails, no dispatch occurs and error logging happens, but
the observable `GitOperationState` afterwards is the in-progress state
written at the start of the handler (action `mergeFromBase`, starting
notice) — not the state that held before the handler ran.  (The pull
handler has no pre-dispatch validation that can throw.) -/
theorem c2_prevalidation_state (env : HandlerEnv) (tr : List HandlerEffect)
    (s0 : GitOperationState) :
    mergeFromBaseHandler env = some tr →
    env.repoAvailable = true →
    normalizeBranchName (getBranchName env.branchArg) ≠ "" →
    (isShellSafeGitRef (resolveBaseBranch env.baseExec).1 &&
      isShellSafeGitRef (normalizeBranchName (getBranchName env.branchArg))) = false →
    dispatchCount tr = 0 ∧
    finalOpState s0 tr =
      ⟨true, some .mergeFromBase, DEFAULT_TERMINAL_NAME, mergeStartNotice⟩ ∧
    hasErrorLog tr = true := by
  intro hsome hrepo hne hcheck
  simp only [mergeFromBaseHandler, hrepo] at hsome
  iterate 10 all_goals try split at hsome
  all_goals first
    | exact Option.noConfusion hsome
    | (replace hsome := Option.some.inj hsome
       subst hsome
       simp_all [dispatchCount, isDispatchEffect, List.filter_append,
         filter_isDispatch_map_log, hasErrorLog, isErrorLogEffect, List.any_append,
         finalOpState_append, finalOpState_map_log, finalOpState_nil, finalOpState_cons_set,
         finalOpState_cons_log, finalOpState_cons_dispatch, finalOpState_cons_mruSync])

/-- Witness for the amended C2 at the concrete shell-unsafe base
`bad;base`. -/
theorem c2_witness :
    dispatchCount trMergeUnsafeBase = 0 ∧
    finalOpState priorOpState trMergeUnsafeBase =
      ⟨true, some .mergeFromBase, DEFAULT_TERMINAL_NAME, mergeStartNotice⟩ ∧
    hasErrorLog trMergeUnsafeBase = true :=
  c2_prevalidation_state envMergeUnsafeBase trMergeUnsafeBase priorOpState
    (by decide) (by decide) (by decide) (by decide)

/-! ## C6: the repository-state-changed handler -/

theorem find_map_replace (key0 key : String) (v : List String) (h : key ≠ key0) :
    ∀ storage : List (String × List String),
      ((storage.map (fun kv => if kv.1 == key0 then (key0, v) else kv)).find?
        (fun kv => kv.1 == key)) = storage.find? (fun kv => kv.1 == key)
  | [] => rfl
  | kv :: rest => by
    by_cases hk : (kv.1 == key0) = true
    · have hkv : kv.1 = key0 := by simpa using hk
      have hkey0 : ((key0 : String) == key) = false := by
        simp [(Ne.symm h)]
      have hkey : (kv.1 == key) = false := by simp [hkv, (Ne.symm h)]
      simp only [List.map_cons, if_pos hk, List.find?_cons, hkey0, hkey]
      exact find_map_replace key0 key v h rest
    · simp only [List.map_cons, if_neg hk, List.find?_cons]
      cases hkey : (kv.1 == key) with
      | true => rfl
      | false => exact find_map_replace key0 key v h rest

theorem mementoGet_update_ne (storage : List (String × List String)) (key0 key : String)
    (v : List String) (h : key ≠ key0) :
    mementoGet (mementoUpdate storage key0 v) key = mementoGet storage key := by
  rw [mementoUpdate]
  by_cases hany : storage.any (fun kv => kv.1 == key0) = true
  · rw [if_pos hany, mementoGet, mementoGet, find_map_replace key0 key v h]
  · rw [if_neg hany, mementoGet, mementoGet, List.find?_append]
    have hone : ([(key0, v)].find? (fun kv => kv.1 == key)) = none := by
      simp [(Ne.symm h)]
    rw [hone]
    cases storage.find? (fun kv => kv.1 == key) <;> rfl

/-- C6, refuted as stated: (a) when no handle was active before the
event, the handler leaves the event's repository as the active handle
(`previous ?? repository`) instead of restoring the absent handle;
(b) when the repository reports no HEAD name, no re-render notification
is fired at all. -/
theorem c6_counterexample :
    (updateCurrentBranchMru ⟨0, "/r", some ("main")⟩ ⟨none, [], 0⟩).repository =
        some (⟨0, "/r", some ("main")⟩ : Repository) ∧
    (⟨none, [], 0⟩ : ProviderState).repository = none ∧
    (updateCurrentBranchMru ⟨1, "/r", none⟩ ⟨none, [], 0⟩).refreshCount = 0 := by
  exact ⟨by decide, by decide, by decide⟩

/-- C6, amended: when the repository reports a nonempty HEAD name the
handler restores a previously active handle but adopts the event's
repository when none was active, changes the persistent store only at
the event repository's MRU key, and fires at least one re-render; when
the HEAD name is absent it does nothing (no re-render). -/
theorem c6_update_mru_amended (repo : Repository) (st : ProviderState) (h : String) :
    (repo.headName = some h → h ≠ "" →
      (updateCurrentBranchMru repo st).repository =
          (if st.repository = none then some repo else st.repository) ∧
      (∀ key, key ≠ getStorageKey repo.path →
        mementoGet (updateCurrentBranchMru repo st).storage key = mementoGet st.storage key) ∧
      st.refreshCount < (updateCurrentBranchMru repo st).refreshCount) ∧
    (repo.headName = none → updateCurrentBranchMru repo st = st) := by
  constructor
  · intro hhead hne
    rw [updateCurrentBranchMru, hhead]
    simp only [if_neg hne]
    cases hrepo : st.repository with
    | none =>
      refine ⟨?_, ?_, ?_⟩
      · simp [setRepository, providerRefresh, providerUpdateMruBranch, hrepo,
          getStorageKey]
      · intro key hkey
        simp only [setRepository, providerRefresh, providerUpdateMruBranch, hrepo]
        simp only [if_pos (by simp : (none : Option Repository) ≠ some repo)]
        exact mementoGet_update_ne st.storage (getStorageKey repo.path) key [] hkey ▸
          mementoGet_update_ne _ _ _ _ hkey
      · simp only [setRepository, providerRefresh, providerUpdateMruBranch, hrepo]
        split <;> (try simp) <;> omega
    | some p =>
      by_cases hp : (some p : Option Repository) ≠ some repo
      · refine ⟨?_, ?_, ?_⟩
        · simp [setRepository, providerRefresh, providerUpdateMruBranch, hrepo, hp]
        · intro key hkey
          simp only [setRepository, providerRefresh, providerUpdateMruBranch, hrepo,
            if_pos hp]
          exact mementoGet_update_ne _ _ _ _ hkey
        · simp only [setRepository, providerRefresh, providerUpdateMruBranch, hrepo,
            if_pos hp]
          omega
      · refine ⟨?_, ?_, ?_⟩
        · simp only [not_not] at hp
          simp [setRepository, providerRefresh, providerUpdateMruBranch, hrepo, hp]
        · intro key hkey
          simp only [not_not] at hp
          simp only [setRepository, providerRefresh, providerUpdateMruBranch, hrepo,
            if_neg (by simp [hp] : ¬(some p : Option Repository) ≠ some repo)]
          exact mementoGet_update_ne _ _ _ _ hkey
        · simp only [not_not] at hp
          simp only [setRepository, providerRefresh, providerUpdateMruBranch, hrepo,
            if_neg (by simp [hp] : ¬(some p : Option Repository) ≠ some repo)]
          omega
  · intro hhead
    rw [updateCurrentBranchMru, hhead]

/-! ## C9: terminal dispatch -/

theorem ensureTerminal_of_exists (w : WindowState) (ex : ExecutorState)
    (repositoryPath : String) (cf : Option String)
    (hex : ∃ t ∈ w.terminals, t.name = ex.terminalName) :
    ∃ t', ensureTerminal w ex repositoryPath cf =
      .ok (t', Lifecycle.reused, w, ⟨ex.terminalName, some t'⟩) := by
  obtain ⟨t, ht, htn⟩ := hex
  have hsome : (w.terminals.find? (fun term => term.name == ex.terminalName)).isSome := by
    rw [List.find?_isSome]
    exact ⟨t, ht, by simp [htn]⟩
  obtain ⟨t2, ht2⟩ := Option.isSome_iff_exists.mp hsome
  cases htr : ex.tracked with
  | none =>
    exact ⟨t2, by simp only [ensureTerminal.eq_def, htr, ht2]⟩
  | some tracked =>
    by_cases hc : w.terminals.contains tracked = true
    · exact ⟨tracked, by simp only [ensureTerminal.eq_def, htr, if_pos hc]⟩
    · exact ⟨t2, by simp only [ensureTerminal.eq_def, htr, if_neg hc, ht2]⟩

theorem ensureTerminal_of_not_exists (w : WindowState) (ex : ExecutorState)
    (repositoryPath : String)
    (hinv : ∀ t, ex.tracked = some t → t.name = ex.terminalName)
    (hall : ∀ t ∈ w.terminals, t.name ≠ ex.terminalName) :
    ensureTerminal w ex repositoryPath none =
      .ok (⟨w.nextId, ex.terminalName, repositoryPath⟩, Lifecycle.created,
        ⟨w.terminals ++ [⟨w.nextId, ex.terminalName, repositoryPath⟩], w.nextId + 1⟩,
        ⟨ex.terminalName, some ⟨w.nextId, ex.terminalName, repositoryPath⟩⟩) := by
  have hfind : w.terminals.find? (fun term => term.name == ex.terminalName) = none := by
    rw [List.find?_eq_none]
    intro t ht
    simp [hall t ht]
  cases htr : ex.tracked with
  | none => simp only [ensureTerminal.eq_def, htr, hfind]
  | some tracked =>
    have hcontains : ¬w.terminals.contains tracked = true := by
      intro hc
      have hmem : tracked ∈ w.terminals := by
        rw [List.contains_iff_exists_mem_beq] at hc
        obtain ⟨b, hb, hbeq⟩ := hc
        rwa [show tracked = b from by simpa using hbeq]
      exact hall tracked hmem (hinv tracked htr)
    simp only [ensureTerminal.eq_def, htr, if_neg hcontains, hfind]

/-- C9, confirmed: `runCommand` reuses an open terminal carrying the
configured name (reporting `reused`, leaving the window unchanged),
creates a terminal rooted at the repository path only when none with
that name exists, and a failure at any of the four steps short-circuits
the remaining steps and yields `ok = false` naming exactly the failed
step.  The hypothesis is the executor invariant that any tracked
terminal carries the configured name. -/
theorem c9_run_command (w : WindowState) (ex : ExecutorState)
    (repositoryPath command : String) (failures : StepFailures)
    (hinv : ∀ t, ex.tracked = some t → t.name = ex.terminalName) :
    ((∃ t ∈ w.terminals, t.name = ex.terminalName) →
      (runCommand w ex repositoryPath command failures).result.lifecycle = Lifecycle.reused ∧
      (runCommand w ex repositoryPath command failures).window = w) ∧
    ((∀ t ∈ w.terminals, t.name ≠ ex.terminalName) → failures.createFails = none →
      (runCommand w ex repositoryPath command failures).result.lifecycle = Lifecycle.created ∧
      (runCommand w ex repositoryPath command failures).window.terminals =
        w.terminals ++ [⟨w.nextId, ex.terminalName, repositoryPath⟩]) ∧
    ((runCommand w ex repositoryPath command failures).result.ok = false →
      (runCommand w ex repositoryPath command failures).result.failedStep ≠ none) ∧
    ((runCommand w ex repositoryPath command failures).result.failedStep =
        some DispatchStep.createOrReuse →
      (runCommand w ex repositoryPath command failures).result.ok = false ∧
      (runCommand w ex repositoryPath command failures).shown = none ∧
      (runCommand w ex repositoryPath command failures).focusRequested = false ∧
      (runCommand w ex repositoryPath command failures).sentLines = []) ∧
    ((runCommand w ex repositoryPath command failures).result.failedStep =
        some DispatchStep.showTerminal →
      (runCommand w ex repositoryPath command failures).result.ok = false ∧
      (runCommand w ex repositoryPath command failures).focusRequested = false ∧
      (runCommand w ex repositoryPath command failures).sentLines = []) ∧
    ((runCommand w ex repositoryPath command failures).result.failedStep =
        some DispatchStep.focus →
      (runCommand w ex repositoryPath command failures).result.ok = false ∧
      (runCommand w ex repositoryPath command failures).sentLines = []) ∧
    ((runCommand w ex repositoryPath command failures).result.failedStep =
        some DispatchStep.sendText →
      (runCommand w ex repositoryPath command failures).result.ok = false) ∧
    ((runCommand w ex repositoryPath command failures).result.ok = true →
      (runCommand w ex repositoryPath command failures).sentLines =
        ["cd \"" ++ escapeDoubleQuotes repositoryPath ++ "\"", command]) := by
  obtain ⟨cf, sf, ff, s1, s2⟩ := failures
  refine ⟨?_, ?_, ?_⟩
  · intro hex
    obtain ⟨t', ht'⟩ := ensureTerminal_of_exists w ex repositoryPath cf hex
    cases sf <;> cases ff <;> cases s1 <;> cases s2 <;> simp [runCommand, ht']
  · intro hall hcf
    subst hcf
    have hB := ensureTerminal_of_not_exists w ex repositoryPath hinv hall
    cases sf <;> cases ff <;> cases s1 <;> cases s2 <;> simp [runCommand, hB]
  · rcases hE : ensureTerminal w ex repositoryPath cf with msg | ⟨t, lc, w1, ex1⟩ <;>
      cases sf <;> cases ff <;> cases s1 <;> cases s2 <;> simp [runCommand, hE]

/-- Witness for C9: a window already holding a terminal named `RDgit`
leads to reuse with the window unchanged, and the sent lines are the
`cd` line followed by the command. -/
theorem c9_witness :
    ((runCommand windowWithRdGit execFresh ("/repo") ("git pull")
        noStepFailures).result.lifecycle = Lifecycle.reused ∧
      (runCommand windowWithRdGit execFresh ("/repo") ("git pull")
        noStepFailures).window = windowWithRdGit) ∧
    (runCommand windowWithRdGit execFresh ("/repo") ("git pull") noStepFailures).sentLines =
      ["cd \"" ++ escapeDoubleQuotes ("/repo") ++ "\"", "git pull"] :=
  ⟨(c9_run_command windowWithRdGit execFresh ("/repo") ("git pull") noStepFailures
      (fun t ht => by exact absurd ht (by simp [execFresh]))).1
      ⟨⟨0, "RDgit", "/old"⟩, by decide, by decide⟩,
    (c9_run_command windowWithRdGit execFresh ("/repo") ("git pull") noStepFailures
      (fun t ht => by exact absurd ht (by simp [execFresh]))).2.2.2.2.2.2.2
      (by decide)⟩

/-! ## C10: the two base-branch resolvers -/

theorem dropWhile_head_not {p : Char → Bool} : ∀ (l : List Char) (x : Char),
    (l.dropWhile p).head? = some x → p x = false
  | [], x => by simp
  | a :: l, x => by
    rw [List.dropWhile_cons]
    by_cases hp : p a = true
    · rw [if_pos hp]
      exact dropWhile_head_not l x
    · rw [if_neg hp]
      intro hx
      have hax : a = x := by simpa using hx
      subst hax
      simpa using hp

theorem trimmed_dropWhile_eq_self (l : List Char) :
    List.dropWhile Char.isWhitespace
        (List.rdropWhile Char.isWhitespace (List.dropWhile Char.isWhitespace l)) =
      List.rdropWhile Char.isWhitespace (List.dropWhile Char.isWhitespace l) := by
  cases hvv : List.rdropWhile Char.isWhitespace (List.dropWhile Char.isWhitespace l) with
  | nil => simp
  | cons a v2 =>
    rw [List.dropWhile_cons]
    have hpre : List.rdropWhile Char.isWhitespace (List.dropWhile Char.isWhitespace l) <+:
        List.dropWhile Char.isWhitespace l := List.rdropWhile_prefix _ _
    rw [hvv] at hpre
    obtain ⟨tail, htail⟩ := hpre
    have hhead : (List.dropWhile Char.isWhitespace l).head? = some a := by
      rw [← htail]
      rfl
    have ha := dropWhile_head_not l a hhead
    rw [if_neg (by simp [ha])]

theorem strTrim_idem (s : String) : strTrim (strTrim s) = strTrim s := by
  apply String.ext
  show List.rdropWhile Char.isWhitespace (List.dropWhile Char.isWhitespace (strTrim s).data) =
    (strTrim s).data
  show List.rdropWhile Char.isWhitespace (List.dropWhile Char.isWhitespace
    (List.rdropWhile Char.isWhitespace (List.dropWhile Char.isWhitespace s.data))) =
    List.rdropWhile Char.isWhitespace (List.dropWhile Char.isWhitespace s.data)
  rw [trimmed_dropWhile_eq_self]
  exact List.rdropWhile_idempotent _ _

theorem startsWith_head_eq {s p : String} (h : strStartsWith s p = true) :
    ∀ c : Char, p.data.head? = some c → s.data.head? = some c := by
  intro c hc
  obtain ⟨t, ht⟩ := strStartsWith_iff.mp h
  rw [← ht]
  cases hp : p.data with
  | nil => rw [hp] at hc; exact absurd hc (by simp)
  | cons a rest =>
    rw [hp] at hc
    have hac : a = c := by simpa using hc
    subst hac
    rfl

theorem not_origin_of_refsHeads {s : String} (h : strStartsWith s refsHeadsPre = true) :
    strStartsWith s originPre = false := by
  cases ho : strStartsWith s originPre with
  | false => rfl
  | true =>
    have h1 := startsWith_head_eq h ('r') rfl
    have h2 := startsWith_head_eq ho ('o') rfl
    rw [h1] at h2
    exact absurd h2 (by decide)

theorem not_origin_of_heads {s : String} (h : strStartsWith s headsPre = true) :
    strStartsWith s originPre = false := by
  cases ho : strStartsWith s originPre with
  | false => rfl
  | true =>
    have h1 := startsWith_head_eq h ('h') rfl
    have h2 := startsWith_head_eq ho ('o') rfl
    rw [h1] at h2
    exact absurd h2 (by decide)

theorem startsWith_length_le {s p : String} (h : strStartsWith s p = true) :
    p.length ≤ s.length := by
  obtain ⟨t, ht⟩ := strStartsWith_iff.mp h
  show p.data.length ≤ s.data.length
  rw [← ht]
  simp

theorem strDrop_length (s : String) (n : Nat) : (strDrop s n).length = s.length - n := by
  show (s.data.drop n).length = s.data.length - n
  exact List.length_drop n s.data

theorem ne_of_length_lt {a b : String} (h : a.length < b.length) : a ≠ b := by
  intro he
  subst he
  exact Nat.lt_irrefl _ h

theorem resolveBaseBranch_ok (stdout : String) :
    (resolveBaseBranch (Except.ok ⟨stdout, ""⟩)).1 =
      (if strStartsWith (strTrim stdout) originPre = true
       then strDrop (strTrim stdout) originPre.length else strTrim stdout) := by
  have h0 : strTrim ("") = "" := rfl
  simp only [resolveBaseBranch, runGit, h0, if_pos rfl, strTrim_idem]
  split
  · split <;> simp_all [strTrim_idem]
  · simp_all

theorem getBaseBranchName_ok (stdout : String) :
    (getBaseBranchName (Except.ok ⟨stdout, ""⟩)).1 =
      (if strStartsWith (normalizeBranchName (strTrim stdout)) originPre = true
       then strDrop (normalizeBranchName (strTrim stdout)) originPre.length
       else if normalizeBranchName (strTrim stdout) = "" then "main"
       else normalizeBranchName (strTrim stdout)) := by
  simp only [getBaseBranchName, runGitCommandProvider]
  split
  · rfl
  · split <;> rfl

theorem resolveBaseBranch_error (msg : String) :
    (resolveBaseBranch (Except.error msg)).1 = "main" := rfl

theorem getBaseBranchName_error (msg : String) :
    (getBaseBranchName (Except.error msg)).1 = "main" := rfl

/-- C10, refuted as stated: the two resolvers also disagree on a
successful query whose trimmed stdout carries a `heads/` (or
`refs/heads/`) prefix — the tracker path normalizes it away, the
command path returns it verbatim — and on a successful query with
empty stdout but nonempty stderr the command path returns the logged
stderr text rather than the empty string. -/
theorem c10_counterexample :
    (resolveBaseBranch (Except.ok ⟨"heads/dev", ""⟩)).1 = "heads/dev" ∧
    (getBaseBranchName (Except.ok ⟨"heads/dev", ""⟩)).1 = "dev" ∧
    (resolveBaseBranch (Except.ok ⟨"heads/dev", ""⟩)).1 ≠
      (getBaseBranchName (Except.ok ⟨"heads/dev", ""⟩)).1 ∧
    (resolveBaseBranch (Except.ok ⟨"", "warning: unable to resolve"⟩)).1 =
      "warning: unable to resolve" := by
  exact ⟨by decide, by decide, by decide, by decide⟩

/-- C10, amended: on a stderr-free successful query the command path
returns the trimmed stdout with an `origin/` prefix stripped and no
fallback (empty stays empty), the tracker path coerces an empty result
to `main` and additionally strips `refs/heads/` and `heads/` prefixes;
failures yield `main` on both paths; and the two resolvers agree
exactly on the stderr-free outcomes whose trimmed stdout is nonempty
and carries neither prefix. -/
theorem c10_resolvers_amended (stdout msg : String) :
    ((resolveBaseBranch (Except.ok ⟨stdout, ""⟩)).1 =
      (if strStartsWith (strTrim stdout) originPre = true
       then strDrop (strTrim stdout) originPre.length else strTrim stdout)) ∧
    ((resolveBaseBranch (Except.error msg)).1 = "main") ∧
    (strTrim stdout = "" → (getBaseBranchName (Except.ok ⟨stdout, ""⟩)).1 = "main") ∧
    ((getBaseBranchName (Except.error msg)).1 = "main") ∧
    ((resolveBaseBranch (Except.ok ⟨stdout, ""⟩)).1 =
        (getBaseBranchName (Except.ok ⟨stdout, ""⟩)).1 ↔
      ¬(strTrim stdout = "" ∨ strStartsWith (strTrim stdout) refsHeadsPre = true ∨
         strStartsWith (strTrim stdout) headsPre = true)) := by
  refine ⟨resolveBaseBranch_ok stdout, resolveBaseBranch_error msg, ?_,
    getBaseBranchName_error msg, ?_⟩
  · intro h0
    rw [getBaseBranchName_ok, h0]
    decide
  · rw [resolveBaseBranch_ok, getBaseBranchName_ok]
    by_cases h0 : strTrim stdout = ""
    · rw [h0]
      decide
    · by_cases h1 : strStartsWith (strTrim stdout) refsHeadsPre = true
      · have hC : strStartsWith (strTrim stdout) originPre = false := not_origin_of_refsHeads h1
        have hnorm : normalizeBranchName (strTrim stdout) =
            strDrop (strTrim stdout) refsHeadsPre.length := by
          rw [normalizeBranchName, if_pos h1]
        have h11 : refsHeadsPre.length = 11 := rfl
        have h7 : originPre.length = 7 := rfl
        have h4 : ("main" : String).length = 4 := rfl
        have hlen : refsHeadsPre.length ≤ (strTrim stdout).length := startsWith_length_le h1
        have hTlt : (if strStartsWith (normalizeBranchName (strTrim stdout)) originPre = true
            then strDrop (normalizeBranchName (strTrim stdout)) originPre.length
            else if normalizeBranchName (strTrim stdout) = "" then "main"
            else normalizeBranchName (strTrim stdout)).length < (strTrim stdout).length := by
          rw [hnorm]
          split
          · rw [strDrop_length, strDrop_length]
            omega
          · split
            · rw [h4]
              omega
            · rw [strDrop_length]
              omega
        have hne := ne_of_length_lt hTlt
        rw [if_neg (show ¬strStartsWith (strTrim stdout) originPre = true by simp [hC])]
        constructor
        · intro heq
          exact absurd heq.symm hne
        · intro hcon
          exact absurd (Or.inr (Or.inl h1)) hcon
      · by_cases h2 : strStartsWith (strTrim stdout) headsPre = true
        · have hC : strStartsWith (strTrim stdout) originPre = false := not_origin_of_heads h2
          have hnorm : normalizeBranchName (strTrim stdout) =
              strDrop (strTrim stdout) headsPre.length := by
            rw [normalizeBranchName, if_neg (by simp [h1]), if_pos h2]
          have h6 : headsPre.length = 6 := rfl
          have h7 : originPre.length = 7 := rfl
          have h4 : ("main" : String).length = 4 := rfl
          have hlen : headsPre.length ≤ (strTrim stdout).length := startsWith_length_le h2
          have hTlt : (if strStartsWith (normalizeBranchName (strTrim stdout)) originPre = true
              then strDrop (normalizeBranchName (strTrim stdout)) originPre.length
              else if normalizeBranchName (strTrim stdout) = "" then "main"
              else normalizeBranchName (strTrim stdout)).length < (strTrim stdout).length := by
            rw [hnorm]
            split
            · rw [strDrop_length, strDrop_length]
              omega
            · split
              · rw [h4]
                omega
              · rw [strDrop_length]
                omega
          have hne := ne_of_length_lt hTlt
          rw [if_neg (show ¬strStartsWith (strTrim stdout) originPre = true by simp [hC])]
          constructor
          · intro heq
            exact absurd heq.symm hne
          · intro hcon
            exact absurd (Or.inr (Or.inr h2)) hcon
        · have hnorm : normalizeBranchName (strTrim stdout) = strTrim stdout :=
            normalize_of_not_prefixed (by simp [h1]) (by simp [h2])
          rw [hnorm]
          constructor
          · intro _
            simp [h0, h1, h2]
          · intro _
            by_cases ho : strStartsWith (strTrim stdout) originPre = true
            · rw [if_pos ho, if_pos ho]
            · rw [if_neg ho, if_neg ho, if_neg h0]

/-- Witness for the amended C10: whitespace-only stdout is coerced to
`main` by the tracker path, and on `origin/develop` both resolvers
agree. -/
theorem c10_witness :
    (getBaseBranchName (Except.ok ⟨"  ", ""⟩)).1 = "main" ∧
    (resolveBaseBranch (Except.ok ⟨"origin/develop", ""⟩)).1 =
      (getBaseBranchName (Except.ok ⟨"origin/develop", ""⟩)).1 :=
  ⟨(c10_resolvers_amended ("  ") ("m")).2.2.1 (by decide),
    ((c10_resolvers_amended ("origin/develop") ("m")).2.2.2.2).mpr (by decide)⟩

/-- Witness for the amended C6: an event for a repository on HEAD
`main` while a different handle is active. -/
theorem c6_witness :
    (updateCurrentBranchMru ⟨0, "/r", some ("main")⟩ ⟨some ⟨2, "/p", none⟩, [], 0⟩).repository =
      (if (⟨some ⟨2, "/p", none⟩, [], 0⟩ : ProviderState).repository = none
       then some (⟨0, "/r", some ("main")⟩ : Repository)
       else (⟨some ⟨2, "/p", none⟩, [], 0⟩ : ProviderState).repository) ∧
    (⟨some ⟨2, "/p", none⟩, [], 0⟩ : ProviderState).refreshCount <
      (updateCurrentBranchMru ⟨0, "/r", some ("main")⟩ ⟨some ⟨2, "/p", none⟩, [], 0⟩).refreshCount :=
  ⟨((c6_update_mru_amended ⟨0, "/r", some ("main")⟩ ⟨some ⟨2, "/p", none⟩, [], 0⟩ ("main")).1
      (by decide) (by decide)).1,
    ((c6_update_mru_amended ⟨0, "/r", some ("main")⟩ ⟨some ⟨2, "/p", none⟩, [], 0⟩ ("main")).1
      (by decide) (by decide)).2.2⟩
